import Mathlib

/-!
Verification of the ServerBot real-time message bridge.

Shallow embedding of the TypeScript sources:
  src/services/ws.ts        (dispatch layer and the five message handlers)
  src/playerList.ts         (in-memory player registry)
  src/commands/profile.ts   (getMultiplierInfo)

Parts of the repository that are not available as source (codeStorage.ts,
leveling.ts, mergeUsers.ts) and the external collaborators (the Prisma store,
the token validator, notification delivery) are modelled from the
specification at their interface boundary; each such definition carries a
doc comment saying so.

JavaScript machine details that matter here are modelled explicitly:
truthiness of strings (empty string is falsy), optional object fields
(Option), object spread of an undefined handler result (a record whose
fields are all none), and thrown exceptions (Except).
-/

/-- Truthiness domain of the `content` field, which in ws.ts is typed
`string | null` and may also be absent (undefined). -/
inductive JsVal
  | undef
  | null
  | str (s : String)
deriving DecidableEq, Repr

/-- JavaScript truthiness of a `content` value: undefined, null and the
empty string are falsy. -/
def truthy : JsVal → Bool
  | JsVal.str s => if s = "" then false else true
  | _ => false

/-- JavaScript truthiness of an optional string field: absent and the empty
string are falsy. -/
def otruthy : Option String → Bool
  | some s => if s = "" then false else true
  | none => false

/-- The string carried by a `content` value (only used on truthy values). -/
def contentStr : JsVal → String
  | JsVal.str s => s
  | _ => ""

/-- Account platform enum of the store. -/
inductive Platform
  | STEAM
  | DISCORD
deriving DecidableEq, Repr

/-- Profile record held by the store (the fields the bridge reads/writes). -/
structure User where
  id : Nat
  username : String
  xp : Nat
  level : Nat
deriving DecidableEq, Repr

/-- Platform account row of the store, linking an external identity to a
profile. -/
structure Account where
  platform : Platform
  platformId : String
  userId : Nat
  username : String
deriving DecidableEq, Repr

/-- Modelled from the spec: the opaque store collaborator, as the data it
holds — profiles, platform accounts, and the id counter used when a profile
is created. -/
structure Db where
  users : List User
  accounts : List Account
  nextId : Nat
deriving DecidableEq, Repr

/-- First-match association lookup, the JS `Map.get` / keyed `find`. -/
def assocLookup {κ α : Type} [DecidableEq κ] : List (κ × α) → κ → Option α
  | [], _ => none
  | (k, v) :: rest, key => if k = key then some v else assocLookup rest key

/-- The player registry mapping (`Map<string, User>` contents, in insertion
order). -/
abbrev PMap := List (String × User)

/-- JS `Map.set`: overwrite in place when the key exists, else append. -/
def pmapSet (m : PMap) (k : String) (v : User) : PMap :=
  if (assocLookup m k).isSome then
    m.map (fun p => if p.1 = k then (k, v) else p)
  else m ++ [(k, v)]

/-- JS `Map.delete`. -/
def pmapDel (m : PMap) (k : String) : PMap :=
  m.filter (fun p => decide (p.1 ≠ k))

namespace CodeStorage

/-- Modelled from the spec: codeStorage.ts is not under src/. A
PendingLinkCode maps a short-lived code to the identity (discord user id)
that generated it; the storage is the list of live (code, userId) pairs. -/
abbrev Codes := List (String × String)

/-- Modelled from the spec: resolve a pairing code to the identity that
generated it. -/
def getUser (codes : Codes) (code : String) : Option String :=
  assocLookup codes code

/-- Modelled from the spec: invalidate the pending code(s) of the given
identity. ws.ts calls this with the discord user id that the code resolved
to, and the spec requires that afterwards the code that authorized the merge
does not resolve to an identity again. -/
def deleteCode (userId : String) (codes : Codes) : Codes :=
  codes.filter (fun p => decide (p.2 ≠ userId))

end CodeStorage

namespace Leveling

/-- Modelled from the spec: leveling.ts is not under src/. The experience
threshold curve is a policy choice; the spec requires a strictly increasing
function and its worked example uses required(1) = 100. -/
def getXpForNextLevel (level : Nat) : Nat :=
  100 * level

/-- Modelled from the spec: while accumulated experience reaches the
threshold of the current level, subtract the threshold and increment the
level (multi-level jumps supported). Structured with fuel; the fuel passed
by callers always suffices because each step either consumes at least the
level-1 threshold or raises the threshold above the remaining experience. -/
def applyLevels : Nat → Nat → Nat → Nat × Nat
  | 0, xp, level => (xp, level)
  | fuel + 1, xp, level =>
    if getXpForNextLevel level ≤ xp ∧ 0 < getXpForNextLevel level then
      applyLevels fuel (xp - getXpForNextLevel level) (level + 1)
    else (xp, level)

end Leveling

/-- Mutable state the bridge threads through a message: the store, an
optional store-fault flag (when set, every store access rejects with that
description — the store is an external collaborator and may fail), the
pending link codes, the player registry contents, and the direct messages
handed to the notification collaborator. -/
structure St where
  db : Db
  storeFault : Option String
  codes : CodeStorage.Codes
  players : PMap
  dms : List (String × String)
deriving DecidableEq, Repr

namespace Leveling

/-- Modelled from the spec: `giveExperience(profileId, rawAmount)` — absent
profile yields none; otherwise add the gain and apply level-ups, persist,
and return the updated profile. The level-up notification is fire-and-forget
and not observable here. -/
def giveXP (st : St) (userId : String) (amount : Nat) :
    Except String (Option User) × St :=
  match st.storeFault with
  | some e => (Except.error e, st)
  | none =>
    match userId.toNat? with
    | none => (Except.ok none, st)
    | some uid =>
      match st.db.users.find? (fun u => decide (u.id = uid)) with
      | none => (Except.ok none, st)
      | some u =>
        let total := u.xp + amount
        let res := applyLevels (total + 1) total u.level
        let u' : User := { u with xp := res.1, level := res.2 }
        (Except.ok (some u'),
         { st with db :=
            { st.db with users :=
               st.db.users.map (fun v => if v.id = uid then u' else v) } })

end Leveling

/-- Merge outcome record (`{success, message}`). -/
structure MergeResult where
  success : Bool
  message : String
deriving DecidableEq, Repr

/-- Modelled from the spec: mergeUsers.ts is not under src/. Given the
retained (steam-side) and donor (discord-side) profile ids: sum experience,
recompute the level from the combined experience via the progression engine,
reassign every donor account to the retained profile, delete the donor
profile; atomic, and it never throws past its boundary (a store fault is
returned as a failure result). -/
def mergeUsers (keepId donorId : Nat) (st : St) : MergeResult × St :=
  match st.storeFault with
  | some e => (⟨false, "Merge failed: " ++ e⟩, st)
  | none =>
    if keepId = donorId then (⟨false, "Cannot merge a profile with itself."⟩, st)
    else
      match st.db.users.find? (fun u => decide (u.id = keepId)),
            st.db.users.find? (fun u => decide (u.id = donorId)) with
      | some keep, some donor =>
        let total := keep.xp + donor.xp
        let res := Leveling.applyLevels (total + 1) total 1
        let keep' : User := { keep with xp := res.1, level := res.2 }
        let db' : Db :=
          { st.db with
            users := (st.db.users.filter (fun u => decide (u.id ≠ donorId))).map
              (fun u => if u.id = keepId then keep' else u),
            accounts := st.db.accounts.map
              (fun a => if a.userId = donorId then { a with userId := keepId } else a) }
        (⟨true, "Accounts merged successfully."⟩, { st with db := db' })
      | _, _ => (⟨false, "Merge failed: profile not found."⟩, st)

/-- Inbound message envelope (ws.ts `WebsocketMessage`). -/
structure WebsocketMessage where
  type : String
  steamId : Option String
  token : Option String
  content : JsVal
  correlationId : Option String
deriving DecidableEq, Repr

/-- Handler result object: the fields a handler may put in its returned
object; a field that the handler leaves out is none. A handler that returns
undefined (no return statement on some path) is the record with every field
none, matching the spread `...result` of undefined. -/
structure HandlerResult where
  success : Option Bool
  content : Option String
  error : Option String
deriving DecidableEq, Repr

/-- Outbound response envelope (ws.ts `ResponseMessage`), with every
optional field explicit so that a missing `success` is representable. -/
structure ResponseMessage where
  type : String
  correlationId : Option String
  success : Option Bool
  content : Option String
  error : Option String
deriving DecidableEq, Repr

/-- A message handler: may finish with a result object (`Except.ok`) or
raise (`Except.error`), in both cases leaving the state it reached. -/
abbrev Handler := WebsocketMessage → St → Except String HandlerResult × St

/-- Body of the parsed token-validation reply (ws.ts
`AuthValidationResponse`). -/
structure AuthValidationResponse where
  steamId : Nat
  status : String
deriving DecidableEq, Repr

/-- `JSON.stringify` of a profile as returned by getUser_steam. -/
def stringifyUser (u : User) : String :=
  "\x7b\"id\":" ++ toString u.id ++ ",\"username\":\"" ++ u.username ++
    "\",\"xp\":" ++ toString u.xp ++ ",\"level\":" ++ toString u.level ++ "\x7d"

/-- Pure part of `prisma.account.findUnique` on (STEAM, steamId) with the
profile included: the account row, then its owner. -/
def findSteamUser (db : Db) (steamId : String) : Option User :=
  (db.accounts.find? (fun a =>
      decide (a.platform = Platform.STEAM ∧ a.platformId = steamId))).bind
    (fun a => db.users.find? (fun u => decide (u.id = a.userId)))

/-- Modelled from the spec: the store collaborator may reject any access;
`findUnique` on the steam account either rejects (store fault) or returns
the profile lookup. -/
def prismaFindSteamUser (st : St) (steamId : String) :
    Except String (Option User) :=
  match st.storeFault with
  | some e => Except.error e
  | none => Except.ok (findSteamUser st.db steamId)

/-- Accounts of one profile ordered with STEAM before DISCORD, as the
`orderBy` of the findMany in linkCode_steam requests. -/
def sortSteamFirst (accs : List Account) : List Account :=
  accs.filter (fun a => decide (a.platform = Platform.STEAM)) ++
    accs.filter (fun a => decide (a.platform = Platform.DISCORD))

/-- Pure part of the `prisma.user.findMany` of linkCode_steam: every profile
owning the steam identity or the discord identity, each with its accounts
included (steam first). -/
def linkedUsers (db : Db) (steamId discordId : String) :
    List (User × List Account) :=
  (db.users.filter (fun u => db.accounts.any (fun a =>
      decide (a.userId = u.id ∧
        ((a.platform = Platform.STEAM ∧ a.platformId = steamId) ∨
         (a.platform = Platform.DISCORD ∧ a.platformId = discordId)))))).map
    (fun u => (u, sortSteamFirst (db.accounts.filter (fun a => decide (a.userId = u.id)))))

/-- Modelled from the spec: the findMany store access of linkCode_steam,
rejecting on a store fault. -/
def prismaFindManyLinked (st : St) (steamId discordId : String) :
    Except String (List (User × List Account)) :=
  match st.storeFault with
  | some e => Except.error e
  | none => Except.ok (linkedUsers st.db steamId discordId)

/-- Pure part of the `prisma.user.findFirst` of onJoin/onLeave: first
profile owning any account with the given platform id (no platform
filter in the source). -/
def findFirstByPlatformId (db : Db) (platformId : String) : Option User :=
  db.users.find? (fun u => db.accounts.any (fun a =>
    decide (a.userId = u.id ∧ a.platformId = platformId)))

/-- Modelled from the spec: the findFirst store access, rejecting on a store
fault. -/
def prismaFindFirstByPlatformId (st : St) (platformId : String) :
    Except String (Option User) :=
  match st.storeFault with
  | some e => Except.error e
  | none => Except.ok (findFirstByPlatformId st.db platformId)

namespace PlayerList

/-- Embeds `PlayerList.addPlayer` (playerList.ts): `this.players.set(...)`,
overwriting an existing entry. -/
def addPlayer (players : PMap) (steamId : String) (user : User) : PMap :=
  pmapSet players steamId user

/-- Embeds `PlayerList.removePlayerBySteamID` (playerList.ts):
`this.players.delete(steamId)` (the boolean result is ignored by ws.ts). -/
def removePlayerBySteamID (players : PMap) (steamId : String) : PMap :=
  pmapDel players steamId

end PlayerList

/-- Embeds the `"getUser_steam"` handler (ws.ts lines 26-74). The whole body
is wrapped in try/catch; a store rejection becomes the catch result. -/
def getUser_steam (data : WebsocketMessage) (st : St) :
    Except String HandlerResult × St :=
  if !(truthy data.content) || !(otruthy data.steamId) then
    (Except.ok ⟨some false, some "Malformed content received.", none⟩, st)
  else
    let steamId := (data.steamId).getD ""
    let username := contentStr data.content
    match prismaFindSteamUser st steamId with
    | Except.error e =>
      (Except.ok ⟨some false, none, some ("Failed to get user: " ++ e)⟩, st)
    | Except.ok (some user) =>
      (Except.ok ⟨some true, some (stringifyUser user), none⟩, st)
    | Except.ok none =>
      let user : User := { id := st.db.nextId, username := username, xp := 0, level := 1 }
      let db' : Db :=
        { users := st.db.users ++ [user],
          accounts := st.db.accounts ++
            [{ platform := Platform.STEAM, platformId := steamId,
               userId := user.id, username := username }],
          nextId := st.db.nextId + 1 }
      (Except.ok ⟨some true, some (stringifyUser user), none⟩, { st with db := db' })

/-- Embeds the `"linkCode_steam"` handler (ws.ts lines 75-148). This handler
has no try/catch of its own, so a store rejection propagates as a raised
fault. On merge success the pending code is invalidated and a confirmation
direct message is attempted (best-effort). -/
def linkCode_steam (data : WebsocketMessage) (st : St) :
    Except String HandlerResult × St :=
  if !(truthy data.content) || !(otruthy data.steamId) then
    (Except.ok ⟨some false, some "Malformed content received.", none⟩, st)
  else
    let steamId := (data.steamId).getD ""
    let code := contentStr data.content
    match CodeStorage.getUser st.codes code with
    | none => (Except.ok ⟨some false, some "Invalid code entered.", none⟩, st)
    | some discordId =>
      match prismaFindManyLinked st steamId discordId with
      | Except.error e => (Except.error e, st)
      | Except.ok [result_steam, result_discord] =>
        let mr := mergeUsers result_steam.1.id result_discord.1.id st
        let st2 :=
          if mr.1.success then
            let st3 := { mr.2 with codes := CodeStorage.deleteCode discordId mr.2.codes }
            match (result_discord.2).find? (fun a => decide (a.platform = Platform.DISCORD)) with
            | some acc =>
              { st3 with dms := st3.dms ++
                  [(acc.platformId, "🎉 Your Steam and Discord accounts have been successfully linked!")] }
            | none => st3
          else mr.2
        (Except.ok ⟨some mr.1.success, some mr.1.message, none⟩, st2)
      | Except.ok result =>
        (Except.ok ⟨some false,
          some ("Cannot merge when there are more or less than 2 users in the database. Found " ++
            toString result.length ++ " user(s)."),
          none⟩, st)

/-- Embeds the `"giveXP"` handler (ws.ts lines 149-178): split the content
into a profile id and an amount, invoke the progression engine (modelled
from the spec, as leveling.ts is not under src/). The body is wrapped in
try/catch. -/
def giveXP (data : WebsocketMessage) (st : St) :
    Except String HandlerResult × St :=
  if !(truthy data.content) || !(otruthy data.steamId) then
    (Except.ok ⟨some false, some "Malformed content received.", none⟩, st)
  else
    let parts := (contentStr data.content).splitOn " "
    let userId := parts.headD ""
    let xpAmount := parts.getD 1 ""
    match Leveling.giveXP st userId (xpAmount.toNat?.getD 0) with
    | (Except.error e, st') =>
      (Except.ok ⟨some false, none, some ("Failed to give XP: " ++ e)⟩, st')
    | (Except.ok none, st') =>
      (Except.ok ⟨some false, some ("Could not find user by ID " ++ userId), none⟩, st')
    | (Except.ok (some _), st') =>
      (Except.ok ⟨some true, some ("Gave " ++ xpAmount ++ " XP to user " ++ userId), none⟩, st')

/-- Embeds the `"onJoin"` handler (ws.ts lines 179-214). Note the source has
no return statement on its success path: after inserting into the registry
the handler returns undefined, i.e. the all-none result. -/
def onJoin (data : WebsocketMessage) (st : St) :
    Except String HandlerResult × St :=
  if !(truthy data.content) || !(otruthy data.steamId) then
    (Except.ok ⟨some false, some "Malformed content received.", none⟩, st)
  else
    let steamId := (data.steamId).getD ""
    match prismaFindFirstByPlatformId st steamId with
    | Except.error _ =>
      (Except.ok ⟨some false, some "An error occurred while processing the join request.", none⟩, st)
    | Except.ok (some user) =>
      (Except.ok ⟨none, none, none⟩,
       { st with players := PlayerList.addPlayer st.players steamId user })
    | Except.ok none =>
      (Except.ok ⟨some false, some "No user profile found!", none⟩, st)

/-- Embeds the `"onLeave"` handler (ws.ts lines 215-254). -/
def onLeave (data : WebsocketMessage) (st : St) :
    Except String HandlerResult × St :=
  if !(truthy data.content) || !(otruthy data.steamId) then
    (Except.ok ⟨some false, some "Malformed content received.", none⟩, st)
  else
    let steamId := (data.steamId).getD ""
    match prismaFindFirstByPlatformId st steamId with
    | Except.error _ =>
      (Except.ok ⟨some false, some "An error occurred while processing the leave request.", none⟩, st)
    | Except.ok (some _) =>
      (Except.ok ⟨some true, some "Player successfully removed from the list.", none⟩,
       { st with players := PlayerList.removePlayerBySteamID st.players steamId })
    | Except.ok none =>
      (Except.ok ⟨some false, some "No user profile found to remove!", none⟩, st)

/-- Embeds the own properties of the `messageHandlers` object literal of
ws.ts: the handler table keyed by message type. The literal also inherits
every `Object.prototype` member, so the property read at the dispatch site
consults this own-key table first and then the prototype chain; that
fallback is modelled at the lookup site in `processMessage`. -/
def messageHandlers (t : String) : Option Handler :=
  if t = "getUser_steam" then some getUser_steam
  else if t = "linkCode_steam" then some linkCode_steam
  else if t = "giveXP" then some giveXP
  else if t = "onJoin" then some onJoin
  else if t = "onLeave" then some onLeave
  else none

/-- Embeds ws.ts lines 311-321: after a handler finishes, respond iff a
(truthy) correlation id is present, spreading the result fields into the
envelope; a raised handler fault falls to the outer catch, which only logs
— no response. -/
def runHandler (h : Handler) (data : WebsocketMessage) (st : St) :
    List ResponseMessage × St :=
  match h data st with
  | (Except.ok result, st') =>
    if otruthy data.correlationId then
      ([{ type := data.type ++ "_response", correlationId := data.correlationId,
          success := result.success, content := result.content, error := result.error }], st')
    else ([], st')
  | (Except.error _, st') => ([], st')

/-- Embeds ws.ts lines 322-336: unknown (or falsy) message type — an error
response iff a (truthy) correlation id is present. -/
def respondUnknown (data : WebsocketMessage) (st : St) :
    List ResponseMessage × St :=
  if otruthy data.correlationId then
    ([{ type := "error", correlationId := data.correlationId, success := some false,
        content := none, error := some ("Unknown message type: " ++ data.type) }], st)
  else ([], st)

/-- The member names every plain object literal inherits from
`Object.prototype`. The bracket read `messageHandlers[data.type]` at
ws.ts:308 walks the prototype chain, so each of these names yields a truthy
value (a function, or for `__proto__` the prototype object itself) and the
dispatcher takes the handler branch for them, never the unknown-type
branch. -/
def objectPrototypeKeys : List String :=
  ["constructor", "hasOwnProperty", "isPrototypeOf", "propertyIsEnumerable",
   "toLocaleString", "toString", "valueOf", "__proto__",
   "__defineGetter__", "__defineSetter__", "__lookupGetter__", "__lookupSetter__"]

/-- Embeds `messageHandlers[data.type](data)` followed by the response
construction of ws.ts:309-320 when the property read resolved through the
prototype chain rather than to a registered handler.

Per member: `__proto__` reads as the (non-callable) prototype object, and
the definer members require a callable second argument, so those three
invocations throw a TypeError that the outer catch swallows — no response.
`constructor` invoked as `Object(data)` returns the message object itself,
whose spread overrides the response type tag with the original type and
reinjects the message fields — of the modelled envelope fields that
contributes only the content string (the identity and token it also
reinjects lie outside the modelled envelope). The remaining members
(`toString`, `toLocaleString`, `valueOf`, `hasOwnProperty`, `isPrototypeOf`,
`propertyIsEnumerable`, `__lookupGetter__`, `__lookupSetter__`) return a
string, a boolean, the table object, or undefined: values whose spread (and
JSON serialization) contributes none of the envelope fields success,
content or error, so the emitted envelope carries only the type tag and the
correlation id. In every case the state is untouched and no unknown-type
error response is produced. -/
def runInherited (name : String) (data : WebsocketMessage) (st : St) :
    List ResponseMessage × St :=
  if name = "__proto__" then ([], st)
  else if name = "__defineGetter__" ∨ name = "__defineSetter__" then ([], st)
  else if name = "constructor" then
    if otruthy data.correlationId then
      ([{ type := data.type, correlationId := data.correlationId,
          success := none, content := some (contentStr data.content), error := none }], st)
    else ([], st)
  else
    if otruthy data.correlationId then
      ([{ type := data.type ++ "_response", correlationId := data.correlationId,
          success := none, content := none, error := none }], st)
    else ([], st)

/-- Embeds the per-message dispatch of ws.ts lines 288-339: parse (none
models a JSON.parse throw, swallowed by the outer catch), drop on falsy
content, authenticate (the external validator is an oracle argument; a
missing identity or token, or a rejection, drops the message silently),
then route by type. The routing condition `messageHandlers[data.type]` is a
JS property read: own handler keys first, then the members inherited from
`Object.prototype` (all truthy, hence routed to the handler branch), and
only a type matching neither falls to the unknown-type branch. The returned
list is what `ws.send` emitted for this message. -/
def processMessage (handlers : String → Option Handler)
    (auth : String → String → Option AuthValidationResponse)
    (raw : Option WebsocketMessage) (st : St) : List ResponseMessage × St :=
  match raw with
  | none => ([], st)
  | some data =>
    if !(truthy data.content) then ([], st)
    else if otruthy data.steamId && otruthy data.token then
      match auth ((data.steamId).getD "") ((data.token).getD "") with
      | none => ([], st)
      | some _ =>
        if data.type = "" then respondUnknown data st
        else
          match handlers data.type with
          | some h => runHandler h data st
          | none =>
            if data.type ∈ objectPrototypeKeys then runInherited data.type data st
            else respondUnknown data st
    else ([], st)

/-- A guild role as getMultiplierInfo reads it: an id (looked up in the
multiplier table) and a display name. -/
structure Role where
  id : String
  name : String
deriving DecidableEq, Repr

/-- An entry getMultiplierInfo pushes: role name and its factor. Factors are
only compared and maximized by the source, so they are modelled as
rationals. -/
structure RoleMult where
  name : String
  multiplier : ℚ
deriving DecidableEq, Repr

/-- Result record of getMultiplierInfo (profile.ts `MultiplierInfo`). -/
structure MultiplierInfo where
  multiplier : ℚ
  roles : List RoleMult
deriving DecidableEq, Repr

/-- The guild member as getMultiplierInfo reads it: the role grants, in
cache order. -/
structure GuildMember where
  roles : List Role
deriving DecidableEq, Repr

/-- Descending comparison on the factor, the order the source sorts by
(comparator `b.multiplier - a.multiplier`). -/
def multGe (a b : RoleMult) : Prop :=
  b.multiplier ≤ a.multiplier

instance : DecidableRel multGe := fun a b =>
  inferInstanceAs (Decidable (b.multiplier ≤ a.multiplier))

instance : IsTotal RoleMult multGe :=
  ⟨fun a b => le_total b.multiplier a.multiplier⟩

instance : IsTrans RoleMult multGe :=
  ⟨fun _ _ _ h1 h2 => le_trans h2 h1⟩

/-- The stable descending sort the source applies to the pushed roles. -/
def sortDesc (l : List RoleMult) : List RoleMult :=
  List.insertionSort multGe l

/-- Embeds the forEach loop of getMultiplierInfo (profile.ts lines 213-222):
walk the role grants accumulating the pushed entries and the running
maximum. -/
def scanBoosts (mults : List (String × ℚ)) (acc : List RoleMult) (highest : ℚ) :
    List Role → List RoleMult × ℚ
  | [] => (acc, highest)
  | r :: rs =>
    match assocLookup mults r.id with
    | some m =>
      if 1 < m then scanBoosts mults (acc ++ [⟨r.name, m⟩]) (max highest m) rs
      else scanBoosts mults acc highest rs
    | none => scanBoosts mults acc highest rs

/-- Embeds `getMultiplierInfo` (profile.ts lines 205-228). The role
multiplier table (`Leveling.roleMultipliers`, held by the missing
leveling.ts) is passed as data. -/
def getMultiplierInfo (mults : List (String × ℚ)) :
    Option GuildMember → MultiplierInfo
  | none => ⟨1, []⟩
  | some member =>
    let scanned := scanBoosts mults [] 1 member.roles
    ⟨scanned.2, sortDesc scanned.1⟩

/-- The roles getMultiplierInfo pushes, written directly as a filter: the
grants whose table factor exceeds 1, in grant order. -/
def boostingRoles (mults : List (String × ℚ)) (rs : List Role) : List RoleMult :=
  rs.filterMap (fun r =>
    match assocLookup mults r.id with
    | some m => if 1 < m then some ⟨r.name, m⟩ else none
    | none => none)

/-- Heap of Map objects, for the aliasing question of getPlayerList: each
cell is one `Map<string, User>` object, named by a reference. -/
abbrev Heap := List (Nat × PMap)

/-- Overwrite the contents of one Map object. -/
def heapSet (h : Heap) (r : Nat) (m : PMap) : Heap :=
  h.map (fun c => if c.1 = r then (r, m) else c)

/-- A reference unused by any cell of the heap. -/
def freshRef (h : Heap) : Nat :=
  (h.map Prod.fst).foldl max 0 + 1

namespace PlayerList

/-- Embeds `PlayerList.getPlayerList` of the playerList.ts revision ws.ts
compiles against (the one defining addPlayer): `return new Map(this.players)`
— a fresh Map object holding a copy of the entries. `r` is the reference of
the registry-owned map. -/
def getPlayerList (r : Nat) (h : Heap) : Nat × Heap :=
  let fresh := freshRef h
  (fresh, h ++ [(fresh, (assocLookup h r).getD [])])

/-- Embeds `PlayerList.getPlayerBySteamID` reading through the heap:
`this.players.get(steamId)`. -/
def getPlayerBySteamID (r : Nat) (h : Heap) (steamId : String) : Option User :=
  assocLookup ((assocLookup h r).getD []) steamId

end PlayerList

/-- A caller-side mutation of a Map object: add/overwrite or delete an
entry. -/
inductive MapOp
  | set (k : String) (v : User)
  | del (k : String)
deriving DecidableEq, Repr

/-- Apply one mutation to Map contents. -/
def applyMapOp (m : PMap) : MapOp → PMap
  | MapOp.set k v => pmapSet m k v
  | MapOp.del k => pmapDel m k

/-- Run a sequence of caller mutations against the Map object named `r`. -/
def runOps (h : Heap) (r : Nat) : List MapOp → Heap
  | [] => h
  | op :: ops => runOps (heapSet h r (applyMapOp ((assocLookup h r).getD []) op)) r ops

theorem le_foldl_max {α : Type} [LinearOrder α] (a : α) (l : List α) :
    a ≤ l.foldl max a := by
  induction l generalizing a with
  | nil => exact le_refl a
  | cons b l ih => exact le_trans (le_max_left a b) (ih (max a b))

theorem mem_le_foldl_max {α : Type} [LinearOrder α] {x : α} {l : List α} :
    ∀ a : α, x ∈ l → x ≤ l.foldl max a := by
  induction l with
  | nil => intro a hx; cases hx
  | cons b l ih =>
    intro a hx
    rcases List.mem_cons.mp hx with h | h
    · subst h
      exact le_trans (le_max_right a x) (le_foldl_max (max a x) l)
    · exact ih (max a b) h

theorem foldl_max_choice {α : Type} [LinearOrder α] (a : α) (l : List α) :
    l.foldl max a = a ∨ l.foldl max a ∈ l := by
  induction l generalizing a with
  | nil => exact Or.inl rfl
  | cons b l ih =>
    rcases ih (max a b) with h | h
    · rcases max_choice a b with hm | hm
      · exact Or.inl (by rw [List.foldl_cons, h, hm])
      · exact Or.inr (by rw [List.foldl_cons, h, hm]; exact List.mem_cons_self b l)
    · exact Or.inr (List.mem_cons_of_mem b h)

theorem assocLookup_append_left {κ α : Type} [DecidableEq κ]
    {l : List (κ × α)} (l' : List (κ × α)) {k : κ} {v : α}
    (h : assocLookup l k = some v) : assocLookup (l ++ l') k = some v := by
  induction l with
  | nil => simp [assocLookup] at h
  | cons p rest ih =>
    rcases p with ⟨a, b⟩
    by_cases hk : a = k
    · simpa [assocLookup, hk] using (by simpa [assocLookup, hk] using h)
    · simp only [assocLookup, if_neg hk, List.cons_append] at h ⊢
      exact ih h

theorem mem_keys_of_assocLookup_some {κ α : Type} [DecidableEq κ]
    {l : List (κ × α)} {k : κ} {v : α}
    (h : assocLookup l k = some v) : k ∈ l.map Prod.fst := by
  induction l with
  | nil => simp [assocLookup] at h
  | cons p rest ih =>
    rcases p with ⟨a, b⟩
    by_cases hk : a = k
    · simp [hk]
    · simp only [assocLookup, if_neg hk] at h
      simp [ih h]

theorem assocLookup_none_of_not_mem_keys {κ α : Type} [DecidableEq κ]
    {l : List (κ × α)} {k : κ}
    (h : k ∉ l.map Prod.fst) : assocLookup l k = none := by
  induction l with
  | nil => rfl
  | cons p rest ih =>
    rcases p with ⟨a, b⟩
    simp only [List.map_cons, List.mem_cons] at h
    push_neg at h
    simp only [assocLookup, if_neg (Ne.symm h.1)]
    exact ih h.2

theorem assocLookup_filter_none {κ α : Type} [DecidableEq κ]
    {l : List (κ × α)} {k : κ} (p : κ × α → Bool)
    (h : assocLookup l k = none) : assocLookup (l.filter p) k = none := by
  induction l with
  | nil => rfl
  | cons q rest ih =>
    rcases q with ⟨a, b⟩
    by_cases hk : a = k
    · simp [assocLookup, hk] at h
    · simp only [assocLookup, if_neg hk] at h
      by_cases hp : p (a, b)
      · simp [List.filter_cons, hp, assocLookup, if_neg hk, ih h]
      · simp [List.filter_cons, hp, ih h]

theorem assocLookup_filterSnd_none {l : List (String × String)} {code d : String}
    (hnd : (l.map Prod.fst).Nodup)
    (h : assocLookup l code = some d) :
    assocLookup (l.filter (fun p => decide (p.2 ≠ d))) code = none := by
  induction l with
  | nil => simp [assocLookup] at h
  | cons p rest ih =>
    obtain ⟨a, b⟩ := p
    simp only [List.map_cons, List.nodup_cons] at hnd
    by_cases hk : a = code
    · have hb : b = d := by
        have h' := h
        simp only [assocLookup, if_pos hk] at h'
        exact Option.some.inj h'
      subst hb
      subst hk
      rw [List.filter_cons_of_neg (by simp)]
      exact assocLookup_filter_none _ (assocLookup_none_of_not_mem_keys hnd.1)
    · have h' : assocLookup rest code = some d := by
        simpa [assocLookup, if_neg hk] using h
      by_cases hb : b = d
      · subst hb
        rw [List.filter_cons_of_neg (by simp)]
        exact ih hnd.2 h'
      · rw [List.filter_cons_of_pos (by simp [hb])]
        simp only [assocLookup, if_neg hk]
        exact ih hnd.2 h'

theorem getUser_deleteCode {codes : CodeStorage.Codes} {code d : String}
    (hnd : (codes.map Prod.fst).Nodup)
    (h : CodeStorage.getUser codes code = some d) :
    CodeStorage.getUser (CodeStorage.deleteCode d codes) code = none :=
  assocLookup_filterSnd_none hnd h

theorem scanBoosts_spec (mults : List (String × ℚ)) :
    ∀ (rs : List Role) (acc : List RoleMult) (h : ℚ),
      scanBoosts mults acc h rs =
        (acc ++ boostingRoles mults rs,
         ((boostingRoles mults rs).map RoleMult.multiplier).foldl max h) := by
  intro rs
  induction rs with
  | nil => intro acc h; simp [scanBoosts, boostingRoles]
  | cons r rs ih =>
    intro acc h
    simp only [scanBoosts, boostingRoles, List.filterMap_cons]
    cases hlk : assocLookup mults r.id with
    | none => simpa [boostingRoles] using ih acc h
    | some m =>
      dsimp only
      by_cases hm : 1 < m
      · simp only [if_pos hm]
        rw [ih]
        simp [boostingRoles, List.append_assoc]
      · simp only [if_neg hm]
        simpa [boostingRoles] using ih acc h

theorem boostingRoles_gt_one {mults : List (String × ℚ)} {rs : List Role}
    {rm : RoleMult} (h : rm ∈ boostingRoles mults rs) : 1 < rm.multiplier := by
  simp only [boostingRoles, List.mem_filterMap] at h
  obtain ⟨r, _, hr⟩ := h
  cases hlk : assocLookup mults r.id with
  | none => rw [hlk] at hr; cases hr
  | some m =>
    rw [hlk] at hr
    dsimp only at hr
    by_cases hm : 1 < m
    · rw [if_pos hm] at hr
      cases hr
      exact hm
    · rw [if_neg hm] at hr
      cases hr

theorem mergeUsers_codes (keepId donorId : Nat) (st : St) :
    (mergeUsers keepId donorId st).2.codes = st.codes := by
  unfold mergeUsers
  cases st.storeFault with
  | some e => rfl
  | none =>
    by_cases hk : keepId = donorId
    · simp [hk]
    · simp only [if_neg hk]
      cases st.db.users.find? (fun u => decide (u.id = keepId)) with
      | none => rfl
      | some keep =>
        cases st.db.users.find? (fun u => decide (u.id = donorId)) with
        | none => rfl
        | some donor => rfl

theorem heapSet_ne {r q : Nat} (hne : q ≠ r) (m : PMap) :
    ∀ h : Heap, assocLookup (heapSet h r m) q = assocLookup h q := by
  intro h
  induction h with
  | nil => rfl
  | cons c rest ih =>
    obtain ⟨a, b⟩ := c
    simp only [heapSet, List.map_cons]
    dsimp only
    by_cases ha : a = r
    · rw [if_pos ha]
      subst ha
      simp only [assocLookup, if_neg (Ne.symm hne)]
      exact ih
    · rw [if_neg ha]
      simp only [assocLookup]
      by_cases hq : a = q
      · rw [if_pos hq, if_pos hq]
      · rw [if_neg hq, if_neg hq]
        exact ih

theorem runOps_ne {r q : Nat} (hne : q ≠ r) :
    ∀ (ops : List MapOp) (h : Heap),
      assocLookup (runOps h r ops) q = assocLookup h q := by
  intro ops
  induction ops with
  | nil => intro h; rfl
  | cons op ops ih =>
    intro h
    simp only [runOps]
    rw [ih]
    exact heapSet_ne hne _ h

/-- Token validator oracle that accepts every identity/token pair. -/
def authAccept : String → String → Option AuthValidationResponse :=
  fun _ _ => some ⟨1, "ok"⟩

/-- Fixture: a profile owning the steam identity s1. -/
def aliceUser : User := ⟨1, "alice", 0, 1⟩

/-- Fixture: a profile owning the discord identity d1. -/
def bobUser : User := ⟨2, "bob", 0, 1⟩

/-- Fixture: store holding both profiles and their accounts. -/
def dbLinked : Db :=
  ⟨[aliceUser, bobUser],
   [⟨Platform.STEAM, "s1", 1, "alice"⟩, ⟨Platform.DISCORD, "d1", 2, "bob"⟩], 3⟩

/-- Fixture: healthy state with one pending link code. -/
def stLinked : St := ⟨dbLinked, none, [("CODE1", "d1")], [], []⟩

/-- Fixture: same state while the store is rejecting every access. -/
def stFaulty : St := ⟨dbLinked, some "store connection lost", [("CODE1", "d1")], [], []⟩

/-- Fixture: a well-formed link-accounts request with a correlation id. -/
def msgLink : WebsocketMessage :=
  ⟨"linkCode_steam", some "s1", some "tok", JsVal.str "CODE1", some "abc"⟩

/-- C5: a message lacking the token field or the identity field fails
authentication and is dropped silently — no handler runs, no response is
emitted, the state is untouched, even when a correlation id is present. -/
theorem C5_auth_fields_drop (handlers : String → Option Handler)
    (auth : String → String → Option AuthValidationResponse)
    (data : WebsocketMessage) (st : St)
    (h : data.token = none ∨ data.steamId = none) :
    processMessage handlers auth (some data) st = ([], st) := by
  cases hc : truthy data.content with
  | false => simp [processMessage, hc]
  | true => rcases h with h | h <;> simp [processMessage, hc, h, otruthy]

/-- C5 witness: a concrete onJoin request without a token is dropped. -/
def msgNoToken : WebsocketMessage :=
  ⟨"onJoin", some "s1", none, JsVal.str "join", some "abc"⟩

theorem C5_auth_fields_drop_witness :
    processMessage messageHandlers authAccept (some msgNoToken) stLinked = ([], stLinked) :=
  C5_auth_fields_drop messageHandlers authAccept msgNoToken stLinked (Or.inl rfl)

/-- C10: a message whose content is absent, null or the empty string is
dropped before authentication: for every handler table and every validator
oracle no response is emitted and no state is mutated, even with a
correlation id and an unregistered type. -/
theorem C10_empty_content_drop (handlers : String → Option Handler)
    (auth : String → String → Option AuthValidationResponse)
    (data : WebsocketMessage) (st : St)
    (h : data.content = JsVal.undef ∨ data.content = JsVal.null ∨
         data.content = JsVal.str "") :
    processMessage handlers auth (some data) st = ([], st) := by
  have hc : truthy data.content = false := by
    rcases h with h | h | h <;> simp [h, truthy]
  simp [processMessage, hc]

/-- C10 witness: a concrete authenticated message with undefined content and
an unregistered type gets no response. -/
def msgNoContent : WebsocketMessage :=
  ⟨"noSuchType", some "s1", some "tok", JsVal.undef, some "abc"⟩

theorem C10_empty_content_drop_witness :
    processMessage messageHandlers authAccept (some msgNoContent) stLinked = ([], stLinked) :=
  C10_empty_content_drop messageHandlers authAccept msgNoContent stLinked (Or.inl rfl)

/-- C1 (amended): a fault raised inside a handler is caught at the dispatch
boundary — dispatch completes normally with the state the handler reached,
so the connection survives — but no response is emitted, even when a
correlation id is present; the fault is only logged. -/
theorem C1_fault_caught (handlers : String → Option Handler)
    (auth : String → String → Option AuthValidationResponse)
    (data : WebsocketMessage) (st st' : St) (h : Handler)
    (a : AuthValidationResponse) (e : String)
    (hct : truthy data.content = true)
    (hs : otruthy data.steamId = true)
    (ht : otruthy data.token = true)
    (ha : auth ((data.steamId).getD "") ((data.token).getD "") = some a)
    (hty : data.type ≠ "")
    (hreg : handlers data.type = some h)
    (hrun : h data st = (Except.error e, st')) :
    processMessage handlers auth (some data) st = ([], st') := by
  simp [processMessage, hct, hs, ht, ha, hty, hreg, runHandler, hrun]

theorem C1_fault_caught_witness :
    processMessage messageHandlers authAccept (some msgLink) stFaulty = ([], stFaulty) :=
  C1_fault_caught messageHandlers authAccept msgLink stFaulty stFaulty
    linkCode_steam ⟨1, "ok"⟩ "store connection lost"
    rfl rfl rfl rfl (by decide) rfl rfl

/-- C1 counterexample: at a concrete registered message with a correlation
id whose handler raises (linkCode_steam while the store rejects), the
dispatcher sends nothing at all — the claimed success-false error response
is never emitted. -/
theorem C1_counterexample :
    (linkCode_steam msgLink stFaulty).1 = Except.error "store connection lost"
    ∧ (processMessage messageHandlers authAccept (some msgLink) stFaulty).1 = [] :=
  ⟨rfl, rfl⟩

/-- C4 (amended): an authenticated message whose type neither is a
registered handler key nor matches a member name inherited from
Object.prototype gets, iff a correlation id is present, exactly the error
response with that correlation id, success false and the unknown-type
description; a type matching an inherited member takes the handler branch
instead and never yields the unknown-type error response. -/
theorem C4_unknown_type_response
    (auth : String → String → Option AuthValidationResponse)
    (data : WebsocketMessage) (st : St) (a : AuthValidationResponse)
    (hct : truthy data.content = true)
    (hs : otruthy data.steamId = true)
    (ht : otruthy data.token = true)
    (ha : auth ((data.steamId).getD "") ((data.token).getD "") = some a)
    (hreg : messageHandlers data.type = none)
    (hproto : data.type ∉ objectPrototypeKeys) :
    (∀ c, data.correlationId = some c → c ≠ "" →
       processMessage messageHandlers auth (some data) st =
         ([{ type := "error", correlationId := some c, success := some false,
             content := none,
             error := some ("Unknown message type: " ++ data.type) }], st))
    ∧ (data.correlationId = none →
       processMessage messageHandlers auth (some data) st = ([], st)) := by
  constructor
  · intro c hcc hcne
    have hoc : otruthy (some c) = true := by simp [otruthy, hcne]
    by_cases hty : data.type = ""
    · simp [processMessage, hct, hs, ht, ha, hty, respondUnknown, hcc, hoc]
    · simp [processMessage, hct, hs, ht, ha, hty, hreg, hproto, respondUnknown, hcc, hoc]
  · intro hcc
    have hoc : otruthy data.correlationId = false := by simp [hcc, otruthy]
    by_cases hty : data.type = ""
    · simp [processMessage, hct, hs, ht, ha, hty, respondUnknown, hoc]
    · simp [processMessage, hct, hs, ht, ha, hty, hreg, hproto, respondUnknown, hoc]

/-- C4 witness: the unregistered, non-inherited type noSuchType with
correlation id abc yields exactly the specified error response. -/
def msgUnknown : WebsocketMessage :=
  ⟨"noSuchType", some "s1", some "tok", JsVal.str "hello", some "abc"⟩

theorem C4_unknown_type_response_witness :
    processMessage messageHandlers authAccept (some msgUnknown) stLinked =
      ([{ type := "error", correlationId := some "abc", success := some false,
          content := none,
          error := some ("Unknown message type: " ++ "noSuchType") }], stLinked) :=
  (C4_unknown_type_response authAccept msgUnknown stLinked ⟨1, "ok"⟩
    rfl rfl rfl rfl rfl (by decide)).1 "abc" rfl (by decide)

/-- Fixture: an authenticated request whose type is the inherited
Object.prototype member toString, with a correlation id. -/
def msgToString : WebsocketMessage :=
  ⟨"toString", some "s1", some "tok", JsVal.str "hello", some "abc"⟩

/-- C4 counterexample: the type toString has no registered handler and the
message carries a correlation id, yet the property read resolves through
Object.prototype, the dispatcher takes the handler branch and emits a
toString_response envelope — not the unknown-type error response the claim
demands at every unregistered type. -/
theorem C4_counterexample :
    messageHandlers "toString" = none
    ∧ processMessage messageHandlers authAccept (some msgToString) stLinked =
        ([{ type := "toString" ++ "_response", correlationId := some "abc",
            success := none, content := none, error := none }], stLinked)
    ∧ (processMessage messageHandlers authAccept (some msgToString) stLinked).1 ≠
        [{ type := "error", correlationId := some "abc", success := some false,
           content := none,
           error := some ("Unknown message type: " ++ "toString") }] :=
  ⟨rfl, rfl, by decide⟩

/-- Fixture: a presence-join request with a correlation id, against a store
that knows the identity. -/
def msgJoin : WebsocketMessage :=
  ⟨"onJoin", some "s1", some "tok", JsVal.str "join", some "abc"⟩

/-- Fixture: healthy state with an empty registry. -/
def stJoin : St := ⟨dbLinked, none, [], [], []⟩

/-- C6: at a successful presence-join request with a correlation id the
dispatcher emits a response with NO success flag at all (the onJoin success
path returns undefined, so the spread produces an envelope without
success), contradicting the claim that every response carries a boolean
success flag; the registry insertion does happen. -/
theorem C6_onJoin_missing_success :
    processMessage messageHandlers authAccept (some msgJoin) stJoin =
      ([{ type := "onJoin_response", correlationId := some "abc",
          success := none, content := none, error := none }],
       { stJoin with players := [("s1", aliceUser)] }) :=
  rfl


/-- C2: when a link-accounts request succeeds (the merge returned success),
the pairing code that authorized the merge no longer resolves to any
identity afterwards (pending codes have distinct code keys). -/
theorem C2_code_consumed (data : WebsocketMessage) (st : St) (sid code : String)
    (r : HandlerResult) (st' : St)
    (hc : data.content = JsVal.str code) (hc' : code ≠ "")
    (hs : data.steamId = some sid) (hs' : sid ≠ "")
    (hnd : (st.codes.map Prod.fst).Nodup)
    (hrun : linkCode_steam data st = (Except.ok r, st'))
    (hsucc : r.success = some true) :
    CodeStorage.getUser st'.codes code = none := by
  have hcond : (!truthy (JsVal.str code) || !otruthy (some sid)) = false := by
    simp [truthy, otruthy, hc', hs']
  simp only [linkCode_steam, hc, hs, contentStr, Option.getD_some, hcond,
    Bool.false_eq_true, if_false] at hrun
  cases hcode : CodeStorage.getUser st.codes code with
  | none =>
    rw [hcode] at hrun
    dsimp only at hrun
    obtain ⟨h1, _⟩ := Prod.mk.inj hrun
    have hre := Except.ok.inj h1
    rw [← hre] at hsucc
    simp at hsucc
  | some discordId =>
    rw [hcode] at hrun
    dsimp only at hrun
    cases hfm : prismaFindManyLinked st sid discordId with
    | error e =>
      rw [hfm] at hrun
      exact absurd (Prod.mk.inj hrun).1 (by simp)
    | ok L =>
      rw [hfm] at hrun
      match L, hrun with
      | [], hrun =>
        obtain ⟨h1, _⟩ := Prod.mk.inj hrun
        have hre := Except.ok.inj h1
        rw [← hre] at hsucc
        simp at hsucc
      | [u1], hrun =>
        obtain ⟨h1, _⟩ := Prod.mk.inj hrun
        have hre := Except.ok.inj h1
        rw [← hre] at hsucc
        simp at hsucc
      | u1 :: u2 :: u3 :: rest, hrun =>
        obtain ⟨h1, _⟩ := Prod.mk.inj hrun
        have hre := Except.ok.inj h1
        rw [← hre] at hsucc
        simp at hsucc
      | [u1, u2], hrun =>
        have hcodesM := mergeUsers_codes u1.1.id u2.1.id st
        dsimp only at hrun
        cases hbs : (mergeUsers u1.1.id u2.1.id st).1.success with
        | false =>
          rw [hbs] at hrun
          simp only [Bool.false_eq_true, if_false] at hrun
          obtain ⟨h1, _⟩ := Prod.mk.inj hrun
          have hre := Except.ok.inj h1
          rw [← hre] at hsucc
          simp [hbs] at hsucc
        | true =>
          rw [hbs] at hrun
          simp only [if_true] at hrun
          cases hdm : (u2.2).find? (fun a => decide (a.platform = Platform.DISCORD)) with
          | none =>
            rw [hdm] at hrun
            obtain ⟨_, h2⟩ := Prod.mk.inj hrun
            rw [← h2]
            dsimp only
            rw [hcodesM]
            exact getUser_deleteCode hnd hcode
          | some acc =>
            rw [hdm] at hrun
            obtain ⟨_, h2⟩ := Prod.mk.inj hrun
            rw [← h2]
            dsimp only
            rw [hcodesM]
            exact getUser_deleteCode hnd hcode

theorem C2_code_consumed_witness :
    CodeStorage.getUser ((linkCode_steam msgLink stLinked).2).codes "CODE1" = none :=
  C2_code_consumed msgLink stLinked "s1" "CODE1" _ _
    rfl (by decide) rfl (by decide) (by decide) rfl rfl

/-- C3: a link-accounts request whose code resolves to an identity but whose
identity pair matches a number of profiles different from two returns
success false with the observed count in the message, and leaves the whole
state (store, registry, pending codes) unchanged — in particular the merge
procedure is never reached and the code is not invalidated. -/
theorem C3_cardinality_guard (data : WebsocketMessage) (st : St) (sid code d : String)
    (hc : data.content = JsVal.str code) (hc' : code ≠ "")
    (hs : data.steamId = some sid) (hs' : sid ≠ "")
    (hsf : st.storeFault = none)
    (hcode : CodeStorage.getUser st.codes code = some d)
    (hlen : (linkedUsers st.db sid d).length ≠ 2) :
    linkCode_steam data st =
      (Except.ok ⟨some false,
        some ("Cannot merge when there are more or less than 2 users in the database. Found " ++
          toString (linkedUsers st.db sid d).length ++ " user(s)."), none⟩, st) := by
  have hcond : (!truthy (JsVal.str code) || !otruthy (some sid)) = false := by
    simp [truthy, otruthy, hc', hs']
  have hfm : prismaFindManyLinked st sid d = Except.ok (linkedUsers st.db sid d) := by
    simp [prismaFindManyLinked, hsf]
  simp only [linkCode_steam, hc, hs, contentStr, Option.getD_some, hcond,
    Bool.false_eq_true, if_false, hcode, hfm]
  rcases hl : linkedUsers st.db sid d with _ | ⟨u1, _ | ⟨u2, _ | ⟨u3, rest⟩⟩⟩
  · simp [hl]
  · simp [hl]
  · rw [hl] at hlen
    simp at hlen
  · simp [hl]

/-- Fixture: store holding only the steam-side profile, so the identity
pair resolves to a single profile. -/
def dbOne : Db := ⟨[aliceUser], [⟨Platform.STEAM, "s1", 1, "alice"⟩], 2⟩

/-- Fixture: healthy single-profile state with the pending code. -/
def stOne : St := ⟨dbOne, none, [("CODE1", "d1")], [], []⟩

theorem C3_cardinality_guard_witness :
    linkCode_steam msgLink stOne =
      (Except.ok ⟨some false,
        some ("Cannot merge when there are more or less than 2 users in the database. Found " ++
          toString (linkedUsers stOne.db "s1" "d1").length ++ " user(s)."), none⟩, stOne) :=
  C3_cardinality_guard msgLink stOne "s1" "CODE1" "d1"
    rfl (by decide) rfl (by decide) rfl rfl (by decide)

/-- C8: the fetch-or-create profile handler returns the existing profile for
the identity with success true; when none exists it creates and returns a
profile with zero experience and level one; a request with falsy content or
identity yields success false. -/
theorem C8_getUser_steam_spec (st : St) (data : WebsocketMessage) (c sid : String)
    (hsf : st.storeFault = none)
    (hc : data.content = JsVal.str c) (hc' : c ≠ "")
    (hs : data.steamId = some sid) (hs' : sid ≠ "") :
    (∀ u, findSteamUser st.db sid = some u →
       getUser_steam data st = (Except.ok ⟨some true, some (stringifyUser u), none⟩, st))
    ∧ (findSteamUser st.db sid = none →
       getUser_steam data st =
         (Except.ok ⟨some true, some (stringifyUser ⟨st.db.nextId, c, 0, 1⟩), none⟩,
          { st with db :=
             { users := st.db.users ++ [⟨st.db.nextId, c, 0, 1⟩],
               accounts := st.db.accounts ++ [⟨Platform.STEAM, sid, st.db.nextId, c⟩],
               nextId := st.db.nextId + 1 } }))
    ∧ (∀ (st₂ : St) (d₂ : WebsocketMessage),
         truthy d₂.content = false ∨ otruthy d₂.steamId = false →
         getUser_steam d₂ st₂ =
           (Except.ok ⟨some false, some "Malformed content received.", none⟩, st₂)) := by
  have hcond : (!truthy (JsVal.str c) || !otruthy (some sid)) = false := by
    simp [truthy, otruthy, hc', hs']
  refine ⟨?_, ?_, ?_⟩
  · intro u hu
    have hfind : prismaFindSteamUser st sid = Except.ok (some u) := by
      simp [prismaFindSteamUser, hsf, hu]
    simp [getUser_steam, hc, hs, contentStr, hcond, hfind]
  · intro hu
    have hfind : prismaFindSteamUser st sid = Except.ok none := by
      simp [prismaFindSteamUser, hsf, hu]
    simp [getUser_steam, hc, hs, contentStr, hcond, hfind]
  · intro st₂ d₂ hbad
    rcases hbad with hbad | hbad <;>
      simp [getUser_steam, hbad]

/-- Fixture: state with an empty store. -/
def stEmpty : St := ⟨⟨[], [], 1⟩, none, [], [], []⟩

/-- Fixture: a fetch-or-create request for an unknown steam identity. -/
def msgGetUser : WebsocketMessage :=
  ⟨"getUser_steam", some "s1", some "tok", JsVal.str "alice", some "abc"⟩

theorem C8_getUser_steam_spec_witness :
    getUser_steam msgGetUser stEmpty =
      (Except.ok ⟨some true, some (stringifyUser ⟨stEmpty.db.nextId, "alice", 0, 1⟩), none⟩,
       { stEmpty with db :=
          { users := stEmpty.db.users ++ [⟨stEmpty.db.nextId, "alice", 0, 1⟩],
            accounts := stEmpty.db.accounts ++ [⟨Platform.STEAM, "s1", stEmpty.db.nextId, "alice"⟩],
            nextId := stEmpty.db.nextId + 1 } }) :=
  (C8_getUser_steam_spec stEmpty msgGetUser "alice" "s1"
    rfl rfl (by decide) rfl (by decide)).2.1 rfl

/-- C7: getMultiplierInfo returns as factor the maximum single-role factor
among the roles whose table factor exceeds 1 (never a sum: the factor is an
upper bound of, and when any boosting role exists a member of, the boosting
factors), together with exactly those contributing roles sorted descending
by factor; with no boosting role it returns factor 1 and an empty list. -/
theorem C7_resolveMultiplier_max (mults : List (String × ℚ)) (member : GuildMember) :
    (∀ rm ∈ boostingRoles mults member.roles,
       rm.multiplier ≤ (getMultiplierInfo mults (some member)).multiplier)
    ∧ (boostingRoles mults member.roles ≠ [] →
       (getMultiplierInfo mults (some member)).multiplier ∈
         (boostingRoles mults member.roles).map RoleMult.multiplier)
    ∧ (boostingRoles mults member.roles = [] →
       (getMultiplierInfo mults (some member)).multiplier = 1
       ∧ (getMultiplierInfo mults (some member)).roles = [])
    ∧ (getMultiplierInfo mults (some member)).roles.Perm (boostingRoles mults member.roles)
    ∧ (getMultiplierInfo mults (some member)).roles.Pairwise multGe := by
  have hscan := scanBoosts_spec mults member.roles [] 1
  have hmul : (getMultiplierInfo mults (some member)).multiplier =
      ((boostingRoles mults member.roles).map RoleMult.multiplier).foldl max 1 := by
    simp [getMultiplierInfo, hscan]
  have hroles : (getMultiplierInfo mults (some member)).roles =
      sortDesc (boostingRoles mults member.roles) := by
    simp [getMultiplierInfo, hscan]
  refine ⟨?_, ?_, ?_, ?_, ?_⟩
  · intro rm hrm
    rw [hmul]
    exact mem_le_foldl_max 1 (List.mem_map_of_mem RoleMult.multiplier hrm)
  · intro hne
    rw [hmul]
    rcases foldl_max_choice 1 ((boostingRoles mults member.roles).map RoleMult.multiplier)
      with h1 | h1
    · exfalso
      rcases List.exists_mem_of_ne_nil _ hne with ⟨x, hx⟩
      have hgt := boostingRoles_gt_one hx
      have hle := mem_le_foldl_max 1 (List.mem_map_of_mem RoleMult.multiplier hx)
      rw [h1] at hle
      exact absurd (lt_of_lt_of_le hgt hle) (lt_irrefl 1)
    · exact h1
  · intro hemp
    constructor
    · rw [hmul, hemp]
      simp
    · rw [hroles, hemp]
      rfl
  · rw [hroles]
    exact List.perm_insertionSort multGe _
  · rw [hroles]
    exact List.sorted_insertionSort multGe _

/-- Fixture: the multiplier table of the worked example, factors 1.10 and
1.25. -/
def multsEx : List (String × ℚ) := [("r1", 11/10), ("r2", 5/4)]

/-- Fixture: a member granting both boosting roles and a non-boosting one. -/
def memberEx : GuildMember := ⟨[⟨"r1", "Booster"⟩, ⟨"r2", "VIP"⟩, ⟨"r3", "Pleb"⟩]⟩

theorem C7_resolveMultiplier_max_witness :
    (∀ rm ∈ boostingRoles multsEx memberEx.roles,
       rm.multiplier ≤ (getMultiplierInfo multsEx (some memberEx)).multiplier)
    ∧ (boostingRoles multsEx memberEx.roles ≠ [] →
       (getMultiplierInfo multsEx (some memberEx)).multiplier ∈
         (boostingRoles multsEx memberEx.roles).map RoleMult.multiplier)
    ∧ (boostingRoles multsEx memberEx.roles = [] →
       (getMultiplierInfo multsEx (some memberEx)).multiplier = 1
       ∧ (getMultiplierInfo multsEx (some memberEx)).roles = [])
    ∧ (getMultiplierInfo multsEx (some memberEx)).roles.Perm (boostingRoles multsEx memberEx.roles)
    ∧ (getMultiplierInfo multsEx (some memberEx)).roles.Pairwise multGe :=
  C7_resolveMultiplier_max multsEx memberEx

/-- C9: getPlayerList hands out a fresh Map object holding a copy of the
registry entries: whatever entry additions, overwrites or deletions a
caller performs on the returned object, the registry-owned map is unchanged
and subsequent registry lookups read the same values as before. -/
theorem C9_snapshot_defensive (h : Heap) (r : Nat) (m : PMap) (ops : List MapOp)
    (hr : assocLookup h r = some m) :
    assocLookup
        (runOps (PlayerList.getPlayerList r h).2 (PlayerList.getPlayerList r h).1 ops) r
      = some m
    ∧ ∀ sid,
        PlayerList.getPlayerBySteamID r
            (runOps (PlayerList.getPlayerList r h).2 (PlayerList.getPlayerList r h).1 ops) sid
          = PlayerList.getPlayerBySteamID r h sid := by
  have hmem : r ∈ h.map Prod.fst := mem_keys_of_assocLookup_some hr
  have hle : r ≤ (h.map Prod.fst).foldl max 0 := mem_le_foldl_max 0 hmem
  have hne : r ≠ freshRef h := by
    unfold freshRef
    omega
  have hrun :
      assocLookup
          (runOps (PlayerList.getPlayerList r h).2 (PlayerList.getPlayerList r h).1 ops) r
        = some m := by
    simp only [PlayerList.getPlayerList]
    rw [runOps_ne hne]
    exact assocLookup_append_left _ hr
  refine ⟨hrun, ?_⟩
  intro sid
  unfold PlayerList.getPlayerBySteamID
  rw [hr, hrun]

/-- Fixture: a heap holding just the registry map with one entry. -/
def heapEx : Heap := [(0, [("s1", aliceUser)])]

/-- Fixture: a caller mutation sequence adding, deleting and overwriting
entries of the snapshot. -/
def opsEx : List MapOp :=
  [MapOp.set "s2" bobUser, MapOp.del "s1", MapOp.set "s2" aliceUser]

theorem C9_snapshot_defensive_witness :
    assocLookup
        (runOps (PlayerList.getPlayerList 0 heapEx).2 (PlayerList.getPlayerList 0 heapEx).1 opsEx) 0
      = some [("s1", aliceUser)]
    ∧ ∀ sid,
        PlayerList.getPlayerBySteamID 0
            (runOps (PlayerList.getPlayerList 0 heapEx).2 (PlayerList.getPlayerList 0 heapEx).1 opsEx) sid
          = PlayerList.getPlayerBySteamID 0 heapEx sid :=
  C9_snapshot_defensive heapEx 0 [("s1", aliceUser)] opsEx rfl
